import Mathlib

/-!
Verification of the fiqh-revision-tool corpus pipeline.

Shallow embedding of the structural segmenter (src/text_segmenter.py) and of the
index builder / query engine (src/search_engine.py).  Python strings are modelled
as Lean `String`, regular expressions as explicit character-list parsers (the
inputs of interest are ASCII), and the SQLite store as lists of rows with the
relational operations of the two SQL queries spelled out.  All definitions are
executable so that concrete runs can be evaluated inside proofs.
-/

set_option maxRecDepth 8000

namespace FiqhTool

/-! ### String primitives (Python `str` operations, ASCII) -/

/-- Split a character list on every occurrence of `sep`, keeping empty groups;
models Python `str.split(sep)` for a single-character separator. -/
def splitCharAux (sep : Char) : List Char → List (List Char)
  | [] => [[]]
  | c :: rest =>
    if c = sep then [] :: splitCharAux sep rest
    else
      match splitCharAux sep rest with
      | [] => [[c]]
      | g :: gs => (c :: g) :: gs

def splitChar (sep : Char) (s : String) : List String :=
  (splitCharAux sep s.data).map String.mk

/-- Python `text.split('\n')`. -/
def splitLines (s : String) : List String := splitChar '\n' s

/-- The whitespace characters stripped by Python `str.strip()` / split by `str.split()`. -/
def isSpaceChar (c : Char) : Bool :=
  c = ' ' || c = '\t' || c = '\n' || c = '\r' || c = '\x0b' || c = '\x0c'

/-- Python `str.strip()`: drop leading and trailing whitespace. -/
def pyStrip (s : String) : String :=
  String.mk (((s.data.dropWhile isSpaceChar).reverse.dropWhile isSpaceChar).reverse)

/-- Collect the maximal runs of characters satisfying `p`, left to right.
`acc` holds the characters of the current run, reversed. -/
def groupRuns (p : Char → Bool) : List Char → List Char → List (List Char)
  | [], [] => []
  | [], acc => [acc.reverse]
  | c :: rest, acc =>
    if p c then groupRuns p rest (c :: acc)
    else if acc.isEmpty then groupRuns p rest []
    else acc.reverse :: groupRuns p rest []

/-- Python `str.split()` with no argument: whitespace runs separate, empties dropped. -/
def pySplit (s : String) : List String :=
  (groupRuns (fun c => !isSpaceChar c) s.data []).map String.mk

/-- Python `str.lower()` (ASCII case folding). -/
def lowerStr (s : String) : String := String.mk (s.data.map Char.toLower)

/-- Does the second list start with the first? -/
def listLeads : List Char → List Char → Bool
  | [], _ => true
  | _ :: _, [] => false
  | a :: as, b :: bs => a = b && listLeads as bs

/-- Is `needle` a contiguous sublist of `hay`? -/
def listHasSub (needle : List Char) : List Char → Bool
  | [] => listLeads needle []
  | c :: rest => listLeads needle (c :: rest) || listHasSub needle rest

/-- Python `needle in hay` (case-sensitive substring test). -/
def strContains (hay needle : String) : Bool := listHasSub needle.data hay.data

/-- SQLite `col LIKE '%pat%'` for wildcard-free `pat`: ASCII-case-insensitive
substring containment. -/
def likeContains (col pat : String) : Bool := strContains (lowerStr col) (lowerStr pat)

/-- Python `sep.join(parts)`. -/
def joinSep (sep : String) : List String → String
  | [] => ""
  | [s] => s
  | s :: t :: rest => s ++ sep ++ joinSep sep (t :: rest)

/-! ### Structural segmenter (src/text_segmenter.py) -/

def isRomanChar (c : Char) : Bool := c = 'I' || c = 'V' || c = 'X'

def isUpperAZ (c : Char) : Bool := 'A' ≤ c && c ≤ 'Z'

def isDigitChar (c : Char) : Bool := c.isDigit

/-- Consume an exact literal from the front of a character list. -/
def dropLit : List Char → List Char → Option (List Char)
  | [], cs => some cs
  | _ :: _, [] => none
  | p :: ps, c :: cs => if c = p then dropLit ps cs else none

/-- Regex `^BOOK [IVX]+: ([A-Z]+)$` applied to the stripped line
(pattern `book_header` of `TextSegmenter`); returns the captured name. -/
def parseBookHeader (line : String) : Option String :=
  match dropLit "BOOK ".data (pyStrip line).data with
  | none => none
  | some rest =>
    let roman := rest.takeWhile isRomanChar
    if roman.isEmpty then none
    else
      match dropLit ": ".data (rest.dropWhile isRomanChar) with
      | none => none
      | some rest2 =>
        let name := rest2.takeWhile isUpperAZ
        if name.isEmpty then none
        else if (rest2.dropWhile isUpperAZ).isEmpty then some (String.mk name)
        else none

/-- Regex `^BOOK [IVX]+: ([A-Z]+) (\d+)$` (pattern `chapter_header`);
returns the captured name and chapter-number digits. -/
def parseChapterHeader (line : String) : Option (String × String) :=
  match dropLit "BOOK ".data (pyStrip line).data with
  | none => none
  | some rest =>
    let roman := rest.takeWhile isRomanChar
    if roman.isEmpty then none
    else
      match dropLit ": ".data (rest.dropWhile isRomanChar) with
      | none => none
      | some rest2 =>
        let name := rest2.takeWhile isUpperAZ
        if name.isEmpty then none
        else
          match dropLit " ".data (rest2.dropWhile isUpperAZ) with
          | none => none
          | some rest3 =>
            let digits := rest3.takeWhile isDigitChar
            if digits.isEmpty then none
            else if (rest3.dropWhile isDigitChar).isEmpty then
              some (String.mk name, String.mk digits)
            else none

/-- Regex `^(\d+) BOOK [IVX]+: ([A-Z]+)$` (pattern `arabic_chapter`);
returns the captured chapter-number digits and name. -/
def parseArabicChapter (line : String) : Option (String × String) :=
  let cs := (pyStrip line).data
  let digits := cs.takeWhile isDigitChar
  if digits.isEmpty then none
  else
    match dropLit " BOOK ".data (cs.dropWhile isDigitChar) with
    | none => none
    | some rest =>
      let roman := rest.takeWhile isRomanChar
      if roman.isEmpty then none
      else
        match dropLit ": ".data (rest.dropWhile isRomanChar) with
        | none => none
        | some rest2 =>
          let name := rest2.takeWhile isUpperAZ
          if name.isEmpty then none
          else if (rest2.dropWhile isUpperAZ).isEmpty then
            some (String.mk digits, String.mk name)
          else none

/-- Regex `^The Chapter Of (.+)$` (pattern `chapter_title`); lines carry no
newline, so `.+` is any nonempty remainder. -/
def parseChapterTitle (line : String) : Option String :=
  match dropLit "The Chapter Of ".data (pyStrip line).data with
  | none => none
  | some rest => if rest.isEmpty then none else some (String.mk rest)

structure Book where
  book_number : Nat
  title : String
  start_line : Nat
  end_line : Nat
  content : String
  line_count : Nat
deriving Repr, DecidableEq

structure Chapter where
  chapter_number : Nat
  title : String
  start_line : Nat
  end_line : Nat
  content : String
  line_count : Nat
deriving Repr, DecidableEq

/-- One step of the marker-collection loop of `segment_into_books`: a line
opens a marker only if it matches the book-header pattern and its name has not
been collected before. -/
def bookMarkerStep (acc : List (Nat × String)) (p : Nat × String) : List (Nat × String) :=
  match parseBookHeader p.2 with
  | none => acc
  | some name => if acc.any (fun m => m.2 = name) then acc else acc ++ [(p.1, name)]

def bookMarkers (lines : List String) : List (Nat × String) :=
  lines.enum.foldl bookMarkerStep []

/-- `TextSegmenter.segment_into_books`: each marker spans from its line to the
next marker's line (or end of text); Python slice `lines[start:end]`. -/
def segment_into_books (text : String) : List Book :=
  let lines := splitLines text
  let ms := bookMarkers lines
  ms.enum.map (fun p =>
    let s := p.2.1
    let e := match ms.get? (p.1 + 1) with
      | some m2 => m2.1
      | none => lines.length
    { book_number := p.1 + 1
      title := p.2.2
      start_line := s + 1
      end_line := e
      content := joinSep "\n" ((lines.drop s).take (e - s))
      line_count := e - s })

/-- A (stripped) line is a chapter marker if it matches any of the three
chapter patterns checked by `segment_into_chapters`. -/
def isChapterMarkerLine (lineClean : String) : Bool :=
  (parseChapterHeader lineClean).isSome || (parseArabicChapter lineClean).isSome ||
    (parseChapterTitle lineClean).isSome

def chapterMarkers (lines : List String) : List (Nat × String) :=
  lines.enum.filterMap (fun p =>
    let lc := pyStrip p.2
    if isChapterMarkerLine lc then some (p.1, lc) else none)

/-- `TextSegmenter.extract_chapter_title` fallback chain. -/
def extract_chapter_title (content : String) : String :=
  match parseChapterTitle content with
  | some t => t
  | none =>
    match parseChapterHeader content with
    | some (name, num) => name ++ " - Chapter " ++ num
    | none =>
      match parseArabicChapter content with
      | some (num, name) => name ++ " - Chapter " ++ num
      | none => content

/-- `TextSegmenter.segment_into_chapters` (the `book_title` argument is unused
in the source as well). -/
def segment_into_chapters (book_content : String) (bookTitle : String) : List Chapter :=
  let _ := bookTitle
  let lines := splitLines book_content
  let ms := chapterMarkers lines
  ms.enum.map (fun p =>
    let s := p.2.1
    let e := match ms.get? (p.1 + 1) with
      | some m2 => m2.1
      | none => lines.length
    { chapter_number := p.1 + 1
      title := extract_chapter_title p.2.2
      start_line := s + 1
      end_line := e
      content := joinSep "\n" ((lines.drop s).take (e - s))
      line_count := e - s })

/-! ### Term classifier (src/search_engine.py, `islamic_terms`) -/

/-- The `transliterated` lexicon of `IslamicSearchEngine.islamic_terms`. -/
def transliteratedTerms : List String :=
  ["Allah", "Muhammad", "Rasulullah", "sallallahu", "alayhi", "wasallam",
   "radiyallahu", "anhu", "anha", "anhuma", "anhum", "qala", "qila",
   "bismillah", "rahman", "raheem", "hamd", "rabb", "alameen", "salah",
   "zakat", "sawm", "hajj", "taharah", "wudu", "ghusl", "janabah"]

/-- The `fiqh_terms` lexicon (the source lists `mukallaf` twice; kept as is). -/
def fiqhTerms : List String :=
  ["wajib", "sunnah", "mustahabb", "makruh", "haram", "mubah", "fard",
   "nafl", "qada", "kafarah", "fidyah", "nifas", "hayd", "istihadah",
   "tayammum", "masah", "mukallaf", "aqil", "baligh", "mukallaf"]

/-- The per-token classification of `index_chapter_content`: transliterated
lexicon first, then fiqh lexicon, both compared case-folded. -/
def classifyWord (word : String) : Bool × Option String :=
  if (transliteratedTerms.map lowerStr).contains word then (true, some "transliterated")
  else if (fiqhTerms.map lowerStr).contains word then (true, some "fiqh")
  else (false, none)

/-! ### Index builder (src/search_engine.py) -/

/-- Python `\w` for ASCII text. -/
def isWordChar (c : Char) : Bool := c.isAlphanum || c = '_'

/-- `re.findall(r'\b\w+\b', content.lower())` for ASCII text: the maximal
word-character runs of the case-folded content. -/
def tokenizeContent (content : String) : List String :=
  (groupRuns isWordChar (lowerStr content).data []).map String.mk

/-- The data of one `search_index` row produced for a token occurrence
(the autoincrement row id is attached at insertion time). -/
structure OccData where
  word : String
  position : Nat
  context : String
  is_islamic_term : Bool
  term_type : Option String
deriving Repr, DecidableEq

/-- Context window of `index_chapter_content`: Python slice
`words[max(0, p - 3) : min(len(words), p + 4)]` joined by spaces
(note `p - 3` is truncated subtraction). -/
def contextWindow (words : List String) (p : Nat) : String :=
  joinSep " " ((words.drop (p - 3)).take (min words.length (p + 4) - (p - 3)))

/-- `IslamicSearchEngine.index_chapter_content`: one record per token of the
case-folded, word-boundary tokenization, with classification and context. -/
def index_chapter_content (content : String) : List OccData :=
  let words := tokenizeContent content
  words.enum.map (fun p =>
    let cls := classifyWord p.2
    { word := p.2
      position := p.1
      context := contextWindow words p.1
      is_islamic_term := cls.1
      term_type := cls.2 })

/-! ### Persisted schema (search_index.db) -/

structure BookRow where
  id : Nat
  book_number : Nat
  title : String
  start_line : Nat
  end_line : Nat
  line_count : Nat
deriving Repr, DecidableEq

structure ChapterRow where
  id : Nat
  book_id : Nat
  chapter_number : Nat
  title : String
  start_line : Nat
  end_line : Nat
  line_count : Nat
  content : String
  content_hash : String
deriving Repr, DecidableEq

structure IndexRow where
  id : Nat
  chapter_id : Nat
  word : String
  position : Nat
  context : String
  is_islamic_term : Bool
  term_type : Option String
deriving Repr, DecidableEq

/-- The three tables of the SQLite store, rows in rowid (insertion) order. -/
structure Database where
  books : List BookRow
  chapters : List ChapterRow
  search_index : List IndexRow
deriving Repr, DecidableEq

/-! ### Directory-based reload model (`index_text` input) -/

/-- One record of a book's `metadata.json` `chapters` array. -/
structure ChapterMeta where
  chapter_number : Nat
  title : String
  start_line : Nat
  end_line : Nat
  line_count : Nat
  filename : String
deriving Repr, DecidableEq

/-- A book directory's `metadata.json`. -/
structure BookMeta where
  book_number : Nat
  title : String
  start_line : Nat
  end_line : Nat
  line_count : Nat
  chapters : List ChapterMeta
deriving Repr, DecidableEq

/-- One `book_*` directory: its metadata file (if present) and its files. -/
structure BookDir where
  meta : Option BookMeta
  files : List (String × String)
deriving Repr, DecidableEq

/-- The segments directory: the `book_*` subdirectories in sorted order. -/
structure SegmentsDir where
  bookDirs : List BookDir
deriving Repr, DecidableEq

def readFile (d : BookDir) (name : String) : Option String :=
  (d.files.find? (fun f => f.1 == name)).map (fun f => f.2)

/-- Append one `search_index` row per occurrence; after the rebuild's full
`DELETE`, SQLite assigns rowids sequentially, so the next rowid is the current
row count plus one. -/
def insertOccs (db : Database) (chapterId : Nat) (occs : List OccData) : Database :=
  occs.foldl (fun d o =>
    { d with search_index := d.search_index ++
        [{ id := d.search_index.length + 1
           chapter_id := chapterId
           word := o.word
           position := o.position
           context := o.context
           is_islamic_term := o.is_islamic_term
           term_type := o.term_type }] }) db

/-- The chapter loop body of `index_text`: a missing chapter file is skipped
silently (`continue`, no output); a present one is read, hashed, inserted and
its content indexed under the fresh chapter rowid. -/
def indexChapterIntoDb (hash : String → String) (db : Database) (bookId : Nat)
    (bdir : BookDir) (cm : ChapterMeta) : Database :=
  match readFile bdir cm.filename with
  | none => db
  | some content =>
    let db1 : Database :=
      { db with chapters := db.chapters ++
          [{ id := db.chapters.length + 1
             book_id := bookId
             chapter_number := cm.chapter_number
             title := cm.title
             start_line := cm.start_line
             end_line := cm.end_line
             line_count := cm.line_count
             content := content
             content_hash := hash content }] }
    insertOccs db1 (db.chapters.length + 1) (index_chapter_content content)

/-- The book loop body of `index_text`: a directory without `metadata.json`
is skipped; otherwise the book row is inserted and its chapters processed. -/
def indexBookIntoDb (hash : String → String) (db : Database) (bdir : BookDir) : Database :=
  match bdir.meta with
  | none => db
  | some bm =>
    let db1 : Database :=
      { db with books := db.books ++
          [{ id := db.books.length + 1
             book_number := bm.book_number
             title := bm.title
             start_line := bm.start_line
             end_line := bm.end_line
             line_count := bm.line_count }] }
    bm.chapters.foldl (fun d cm => indexChapterIntoDb hash d (db.books.length + 1) bdir cm) db1

/-- The result of an `index_text` run: the rebuilt store and every line the
run echoes to the console. -/
structure IndexRun where
  db : Database
  messages : List String
deriving Repr, DecidableEq

/-- `IslamicSearchEngine.index_text` over a prior store state: it first clears
all three tables (`DELETE FROM search_index/chapters/books`), then repopulates
from the segments directory.  The only console output is the opening and the
closing status line; nothing is echoed per book or per chapter.  The MD5
content hash is passed in as a function parameter. -/
def index_text (hash : String → String) (priorDb : Database) (fs : SegmentsDir) : IndexRun :=
  let cleared : Database := { priorDb with search_index := [], chapters := [], books := [] }
  let db := fs.bookDirs.foldl (fun d bd => indexBookIntoDb hash d bd) cleared
  { db := db
    messages := ["Creating search index...", "✓ Search index created successfully!"] }

/-! ### Query engine (src/search_engine.py)

The two SQL queries are embedded by their relational meaning:

* the `JOIN`/`WHERE` part filters joined (chapter, occurrence) rows — the
  conjunction `si.word LIKE '%w1%' AND si.word LIKE '%w2%' AND …` is evaluated
  on each single occurrence row;
* `GROUP BY c.id` forms one group per chapter over the surviving rows, with
  `GROUP_CONCAT` aggregating the contexts in scan order;
* the bare column `si.word` in `ORDER BY` is evaluated on one SQLite-chosen
  row of the group; under this schema and query plan (outer scan of
  `chapters`, occurrence lookup through `idx_chapter_id`) the chosen row is
  observed to be the first surviving occurrence of the chapter, which is what
  this model commits to;
* `LIMIT` with a negative bound means no limit.

A store whose database file was never built is `none`: `sqlite3.connect`
creates an empty database without tables and the first `SELECT` then raises
`OperationalError: no such table: chapters`; the search path contains no
DDL, so the schema-less store stays schema-less. -/

structure Hit where
  chapter_id : Nat
  title : String
  content : String
  book_title : String
  chapter_number : Nat
  start_line : Nat
  end_line : Nat
  contexts : List String
  match_type : String
deriving Repr, DecidableEq

/-- The occurrence rows of chapter `cid` surviving the `full_text` `WHERE`
clause: every query term must substring-match this one row's `word`. -/
def matchingRows (db : Database) (cid : Nat) (qws : List String) : List IndexRow :=
  db.search_index.filter (fun si =>
    si.chapter_id == cid && qws.all (fun w => likeContains si.word w))

def bookOf (db : Database) (c : ChapterRow) : Option BookRow :=
  db.books.find? (fun b => b.id == c.book_id)

/-- `JOIN books` plus the optional `b.title LIKE '%book_filter%'` condition. -/
def passesBookFilter (db : Database) (c : ChapterRow) (bf : Option String) : Bool :=
  match bookOf db c with
  | none => false
  | some b =>
    match bf with
    | none => true
    | some f => likeContains b.title f

def qualifies (db : Database) (qws : List String) (bf : Option String) (c : ChapterRow) : Bool :=
  !(matchingRows db c.id qws).isEmpty && passesBookFilter db c bf

/-- `ORDER BY` key of `full_text_search`: the `CASE WHEN si.word = ? THEN 1
ELSE 2 END` value computed on the group's representative row (the first
surviving occurrence), then the chapter number. -/
def sortKey (db : Database) (qws : List String) (cid : Nat) (cnum : Nat) : Nat × Nat :=
  let k : Nat :=
    match (matchingRows db cid qws).head? with
    | some si => if si.word = qws.headD "" then 1 else 2
    | none => 2
  (k, cnum)

/-- Lexicographic order on (case value, chapter number) sort keys. -/
def keyLe (a b : Nat × Nat) : Prop := a.1 < b.1 ∨ (a.1 = b.1 ∧ a.2 ≤ b.2)

instance : DecidableRel keyLe := fun a b =>
  inferInstanceAs (Decidable (a.1 < b.1 ∨ (a.1 = b.1 ∧ a.2 ≤ b.2)))

def chapterLe (db : Database) (qws : List String) (c1 c2 : ChapterRow) : Prop :=
  keyLe (sortKey db qws c1.id c1.chapter_number) (sortKey db qws c2.id c2.chapter_number)

instance (db : Database) (qws : List String) : DecidableRel (chapterLe db qws) := fun c1 c2 =>
  show Decidable (keyLe _ _) from inferInstance

instance (db : Database) (qws : List String) : IsTotal ChapterRow (chapterLe db qws) where
  total c1 c2 := by
    unfold chapterLe keyLe
    omega

instance (db : Database) (qws : List String) : IsTrans ChapterRow (chapterLe db qws) where
  trans c1 c2 c3 := by
    unfold chapterLe keyLe
    omega

/-- The `Hit` dictionary built from one result row: `GROUP_CONCAT` joins the
group's contexts with commas and the Python side splits the string on commas
again. -/
def mkHit (db : Database) (qws : List String) (c : ChapterRow) : Hit :=
  { chapter_id := c.id
    title := c.title
    content := c.content
    book_title :=
      match bookOf db c with
      | some b => b.title
      | none => ""
    chapter_number := c.chapter_number
    start_line := c.start_line
    end_line := c.end_line
    contexts := splitChar ',' (joinSep "," ((matchingRows db c.id qws).map (fun si => si.context)))
    match_type := "full_text" }

/-- SQLite `LIMIT`: a negative bound returns everything. -/
def applyLimit (limit : Int) (l : List α) : List α :=
  if limit < 0 then l else l.take limit.toNat

/-- `IslamicSearchEngine.full_text_search`.  The query is case-folded and
whitespace-split; an empty term list makes the Python code fail on
`query_words[0]` before reaching SQL. -/
def full_text_search (store : Option Database) (query : String) (bf : Option String)
    (limit : Int) : Except String (List Hit) :=
  let qws := pySplit (lowerStr query)
  if qws.isEmpty then Except.error "IndexError: list index out of range"
  else
    match store with
    | none => Except.error "no such table: chapters"
    | some db =>
      let qual := db.chapters.filter (qualifies db qws bf)
      let sorted := List.insertionSort (chapterLe db qws) qual
      Except.ok (applyLimit limit (sorted.map (mkHit db qws)))

/-- `WHERE` clause of `islamic_terms_search`: domain-flagged occurrences whose
word substring-matches the (single, unsplit) query. -/
def itMatchingRows (db : Database) (cid : Nat) (q : String) : List IndexRow :=
  db.search_index.filter (fun si =>
    si.chapter_id == cid && si.is_islamic_term && likeContains si.word q)

def itChapterLe (c1 c2 : ChapterRow) : Prop := c1.chapter_number ≤ c2.chapter_number

instance : DecidableRel itChapterLe := fun c1 c2 =>
  inferInstanceAs (Decidable (c1.chapter_number ≤ c2.chapter_number))

/-- `IslamicSearchEngine.islamic_terms_search`. -/
def islamic_terms_search (store : Option Database) (query : String) (bf : Option String)
    (limit : Int) : Except String (List Hit) :=
  match store with
  | none => Except.error "no such table: chapters"
  | some db =>
    let qual := db.chapters.filter (fun c =>
      !(itMatchingRows db c.id query).isEmpty && passesBookFilter db c bf)
    let sorted := List.insertionSort itChapterLe qual
    Except.ok (applyLimit limit (sorted.map (fun c =>
      { chapter_id := c.id
        title := c.title
        content := c.content
        book_title :=
          match bookOf db c with
          | some b => b.title
          | none => ""
        chapter_number := c.chapter_number
        start_line := c.start_line
        end_line := c.end_line
        contexts := splitChar ',' (joinSep "," ((itMatchingRows db c.id query).map
          (fun si => si.context)))
        match_type := "islamic_terms" })))

/-- `IslamicSearchEngine.exact_phrase_search`: the body is a single call to
`full_text_search`. -/
def exact_phrase_search (store : Option Database) (query : String) (bf : Option String)
    (limit : Int) : Except String (List Hit) :=
  full_text_search store query bf limit

/-- The `search_type` dispatch of `IslamicSearchEngine.search`; an unknown
mode falls through to `full_text_search`. -/
def searchOp (store : Option Database) (query : String) (searchType : String)
    (bf : Option String) (limit : Int) : Except String (List Hit) :=
  if searchType = "full_text" then full_text_search store query bf limit
  else if searchType = "islamic_terms" then islamic_terms_search store query bf limit
  else if searchType = "exact_phrase" then exact_phrase_search store query bf limit
  else full_text_search store query bf limit

/-- `IslamicSearchEngine.search` seen with the store it leaves behind: the
search path only ever executes `SELECT`s, so the store — in particular an
absent schema — is returned exactly as it was found. -/
def search (store : Option Database) (query : String) (searchType : String)
    (bf : Option String) (limit : Int) : Except String (List Hit) × Option Database :=
  (searchOp store query searchType bf limit, store)

/-! ### Concrete corpora used by counterexamples and witnesses -/

/-- A store with one book and two chapters: chapter 1 carries the tokens
`wudu` and `taharah` as two separate occurrences, chapter 2 carries the single
token `wudutaharah`. -/
def exDb1 : Database :=
  { books := [{ id := 1, book_number := 1, title := "PURIFICATION", start_line := 1,
                end_line := 10, line_count := 10 }]
    chapters :=
      [{ id := 1, book_id := 1, chapter_number := 1, title := "ch1", start_line := 1,
         end_line := 5, line_count := 5, content := "c1", content_hash := "h1" },
       { id := 2, book_id := 1, chapter_number := 2, title := "ch2", start_line := 1,
         end_line := 5, line_count := 5, content := "c2", content_hash := "h2" }]
    search_index :=
      [{ id := 1, chapter_id := 1, word := "wudu", position := 0, context := "ctxA",
         is_islamic_term := true, term_type := some "transliterated" },
       { id := 2, chapter_id := 1, word := "taharah", position := 1, context := "ctxB",
         is_islamic_term := true, term_type := some "transliterated" },
       { id := 3, chapter_id := 2, word := "wudutaharah", position := 0, context := "ctxC",
         is_islamic_term := false, term_type := none }] }

/-- A store where chapter id 1 (chapter number 1) holds only the substring
match `wudux` while chapter id 2 (chapter number 3) holds `wudux` followed by
an occurrence exactly equal to `wudu`. -/
def exDb3 : Database :=
  { books := [{ id := 1, book_number := 1, title := "PURIFICATION", start_line := 1,
                end_line := 10, line_count := 10 }]
    chapters :=
      [{ id := 1, book_id := 1, chapter_number := 1, title := "chB", start_line := 1,
         end_line := 5, line_count := 5, content := "cB", content_hash := "hB" },
       { id := 2, book_id := 1, chapter_number := 3, title := "chC", start_line := 1,
         end_line := 5, line_count := 5, content := "cC", content_hash := "hC" }]
    search_index :=
      [{ id := 1, chapter_id := 1, word := "wudux", position := 0, context := "b0",
         is_islamic_term := false, term_type := none },
       { id := 2, chapter_id := 2, word := "wudux", position := 0, context := "c0",
         is_islamic_term := false, term_type := none },
       { id := 3, chapter_id := 2, word := "wudu", position := 1, context := "c1",
         is_islamic_term := true, term_type := some "transliterated" }] }

/-- Book metadata listing two chapters, of which only `chapter_1.txt` exists
on disk. -/
def exMeta8 : BookMeta :=
  { book_number := 1, title := "PURIFICATION", start_line := 1, end_line := 4, line_count := 4,
    chapters :=
      [{ chapter_number := 1, title := "c1", start_line := 1, end_line := 2, line_count := 2,
         filename := "chapter_1.txt" },
       { chapter_number := 2, title := "c2", start_line := 3, end_line := 4, line_count := 2,
         filename := "chapter_2.txt" }] }

/-- A segments directory whose single book directory is missing the file of
its second chapter. -/
def exFs8 : SegmentsDir :=
  { bookDirs := [{ meta := some exMeta8, files := [("chapter_1.txt", "wudu is here")] }] }

/-! ### Claim theorems -/

/-- C2: for every store, query, book filter and limit, `exact_phrase` search
returns exactly the same result as `full_text` search on the same arguments —
both as the direct function alias and through the `search_type` dispatch. -/
theorem C2_exact_phrase_is_full_text_alias :
    ∀ (store : Option Database) (query : String) (bf : Option String) (limit : Int),
      exact_phrase_search store query bf limit = full_text_search store query bf limit ∧
      searchOp store query "exact_phrase" bf limit = searchOp store query "full_text" bf limit := by
  intro store query bf limit
  exact ⟨rfl, rfl⟩

/-- C7: querying a store whose persisted database was never built fails with
an error for every query, mode, filter and limit, and leaves the store
schema-less (the search path issues no DDL); whenever the query has at least
one term, the `full_text` error is sqlite's descriptive
"no such table: chapters". -/
theorem C7_missing_store_fails_fast :
    ∀ (query searchType : String) (bf : Option String) (limit : Int),
      ((∃ msg, (search none query searchType bf limit).1 = Except.error msg) ∧
        (search none query searchType bf limit).2 = none) ∧
      (pySplit (lowerStr query) ≠ [] →
        (search none query "full_text" bf limit).1 = Except.error "no such table: chapters") := by
  intro query searchType bf limit
  have hfull : ∀ bf' : Option String, ∃ msg,
      full_text_search none query bf' limit = Except.error msg := by
    intro bf'
    unfold full_text_search
    by_cases h : (pySplit (lowerStr query)).isEmpty
    · exact ⟨"IndexError: list index out of range", by simp [h]⟩
    · exact ⟨"no such table: chapters", by simp [h]⟩
  refine ⟨⟨?_, rfl⟩, ?_⟩
  · show ∃ msg, searchOp none query searchType bf limit = Except.error msg
    unfold searchOp exact_phrase_search
    by_cases h1 : searchType = "full_text"
    · simpa [h1] using hfull bf
    · by_cases h2 : searchType = "islamic_terms"
      · exact ⟨"no such table: chapters", by simp [h1, h2, islamic_terms_search]⟩
      · by_cases h3 : searchType = "exact_phrase"
        · simpa [h1, h2, h3] using hfull bf
        · simpa [h1, h2, h3] using hfull bf
  · intro hne
    show searchOp none query "full_text" bf limit = Except.error "no such table: chapters"
    have h : (pySplit (lowerStr query)).isEmpty = false := by
      simpa [List.isEmpty_iff] using hne
    simp [searchOp, full_text_search, h]

/-- C7 witness: the theorem instantiated at the query "wudu" in `full_text`
mode with no filter and limit 20. -/
theorem C7_missing_store_fails_fast_witness :
    (((∃ msg, (search none "wudu" "full_text" none 20).1 = Except.error msg) ∧
        (search none "wudu" "full_text" none 20).2 = none) ∧
      (pySplit (lowerStr "wudu") ≠ [] →
        (search none "wudu" "full_text" none 20).1
          = Except.error "no such table: chapters")) ∧
    pySplit (lowerStr "wudu") ≠ [] := by
  refine ⟨C7_missing_store_fails_fast "wudu" "full_text" none 20, ?_⟩
  decide

/-- C9: `index_text` first clears every occurrence, chapter and book record
and then repopulates, so its result does not depend on the prior store state
at all, and rebuilding a second time on the same input reproduces the store
exactly — in particular the same occurrence count and the same chapter
content fingerprints. -/
theorem C9_rebuild_idempotent :
    ∀ (hash : String → String) (db0 db1 : Database) (fs : SegmentsDir),
      (index_text hash db0 fs).db = (index_text hash db1 fs).db ∧
      (index_text hash (index_text hash db0 fs).db fs).db = (index_text hash db0 fs).db ∧
      (index_text hash (index_text hash db0 fs).db fs).db.search_index.length
        = (index_text hash db0 fs).db.search_index.length ∧
      (index_text hash (index_text hash db0 fs).db fs).db.chapters.map ChapterRow.content_hash
        = (index_text hash db0 fs).db.chapters.map ChapterRow.content_hash := by
  intro hash db0 db1 fs
  exact ⟨rfl, rfl, rfl, rfl⟩

/-- C1 counterexample: in the store `exDb1`, chapter 1 has one token
substring-containing "wudu" and another token substring-containing "taharah",
so the claim requires it in the results of the `full_text` search for
"wudu taharah"; the code returns only chapter 2 (whose single token
`wudutaharah` contains both terms), because the SQL `WHERE` conjunction is
evaluated on each occurrence row separately. -/
theorem C1_counterexample :
    (full_text_search (some exDb1) "wudu taharah" none 20).toOption.map (List.map Hit.chapter_id)
      = some [2] ∧
    exDb1.search_index.any (fun si => si.chapter_id == 1 && strContains si.word "wudu") = true ∧
    exDb1.search_index.any (fun si => si.chapter_id == 1 && strContains si.word "taharah")
      = true := by
  exact ⟨rfl, rfl, rfl⟩

/-- C3 counterexample: in the store `exDb3`, chapter id 2 contains an
occurrence exactly equal to the first (and only) query term "wudu" while
chapter id 1 contains only substring matches, yet the result order is
[1, 2]: the `ORDER BY` case key is computed on the group's representative
occurrence (the first surviving one, here `wudux` for both chapters), not on
the existence of an exact occurrence, so the tie falls back to chapter
numbers. -/
theorem C3_counterexample :
    (full_text_search (some exDb3) "wudu" none 20).toOption.map (List.map Hit.chapter_id)
      = some [1, 2] ∧
    exDb3.search_index.any (fun si => si.chapter_id == 2 && si.word == "wudu") = true ∧
    exDb3.search_index.all (fun si => !(si.chapter_id == 1 && si.word == "wudu")) = true := by
  exact ⟨rfl, rfl, rfl⟩

/-- C4 counterexample: for the chapter content
"alpha beta gamma Allah delta epsilon zeta" the occurrence at position 3 has
context "alpha beta gamma allah delta epsilon zeta" — the tokenizer
case-folds the content before the context window is taken, so the context is
not the claimed string "alpha beta gamma Allah delta epsilon zeta" (the flag
and category of the claim do hold). -/
theorem C4_counterexample :
    (index_chapter_content "alpha beta gamma Allah delta epsilon zeta").get? 3 =
      some { word := "allah", position := 3,
             context := "alpha beta gamma allah delta epsilon zeta",
             is_islamic_term := true, term_type := some "transliterated" } ∧
    ((index_chapter_content "alpha beta gamma Allah delta epsilon zeta").get? 3).map
        OccData.context ≠ some "alpha beta gamma Allah delta epsilon zeta" := by
  refine ⟨rfl, ?_⟩
  decide

/-- C6 counterexample: two adjacent distinct book headers make the first —
non-final — book span the single header line, with `start_line = end_line
= 1`, refuting `start_line < end_line` for non-final segments. -/
theorem C6_counterexample :
    (segment_into_books "BOOK I: ALPHA\nBOOK II: BETA\nfoo").map
      (fun b => (b.start_line, b.end_line)) = [(1, 1), (2, 3)] := by
  rfl

/-- C8 counterexample: indexing `exFs8`, whose `chapter_2.txt` is missing,
emits exactly the two fixed status lines — no message mentions the missing
file, so the skip is silent, refuting "the missing file is reported"; the
chapter is skipped (only chapter 1 reaches the store) while the run
completes. -/
theorem C8_counterexample :
    (index_text (fun s => s) { books := [], chapters := [], search_index := [] } exFs8).messages
      = ["Creating search index...", "✓ Search index created successfully!"] ∧
    ((index_text (fun s => s) { books := [], chapters := [], search_index := [] }
        exFs8).messages.all (fun m => !strContains m "chapter_2.txt")) = true ∧
    (index_text (fun s => s) { books := [], chapters := [], search_index := [] }
        exFs8).db.chapters.map ChapterRow.chapter_number = [1] := by
  exact ⟨rfl, rfl, rfl⟩

/-- Decomposition of a successful `full_text_search` run into filter, sort
and limit. -/
theorem full_text_search_ok {db : Database} {query : String} {bf : Option String}
    {limit : Int} {hits : List Hit}
    (h : full_text_search (some db) query bf limit = Except.ok hits) :
    hits = applyLimit limit ((List.insertionSort (chapterLe db (pySplit (lowerStr query)))
      (db.chapters.filter (qualifies db (pySplit (lowerStr query)) bf))).map
        (mkHit db (pySplit (lowerStr query)))) := by
  unfold full_text_search at h
  by_cases he : (pySplit (lowerStr query)).isEmpty
  · simp [he] at h
  · simp [he] at h
    exact h.symm

/-- A member of a qualifying-chapter filter has a surviving occurrence whose
word substring-matches every query term. -/
theorem exists_matching_occurrence {db : Database} {qws : List String} {bf : Option String}
    {c : ChapterRow} (hq : qualifies db qws bf c = true) :
    ∃ si ∈ db.search_index, si.chapter_id = c.id ∧
      ∀ w ∈ qws, likeContains si.word w = true := by
  unfold qualifies at hq
  rw [Bool.and_eq_true] at hq
  have hne : matchingRows db c.id qws ≠ [] := by
    have := hq.1
    simpa [List.isEmpty_iff] using this
  obtain ⟨si, hsi⟩ := List.exists_mem_of_ne_nil _ hne
  have hsim := List.mem_filter.mp hsi
  have hcond := hsim.2
  rw [Bool.and_eq_true] at hcond
  refine ⟨si, hsim.1, ?_, ?_⟩
  · exact by simpa using hcond.1
  · intro w hw
    exact List.all_eq_true.mp hcond.2 w hw

/-- C1 amended: in `full_text` mode the conjunction over query terms is
evaluated per occurrence, not per chapter — a chapter appears in the results
exactly when some single one of its occurrence tokens substring-contains
every whitespace-separated query term (and the book filter passes), with the
completeness direction stated under the limit giving enough headroom. -/
theorem C1_per_occurrence_conjunction :
    ∀ (db : Database) (query : String) (bf : Option String) (limit : Int) (hits : List Hit),
      full_text_search (some db) query bf limit = Except.ok hits →
      (∀ h ∈ hits, ∃ si ∈ db.search_index, si.chapter_id = h.chapter_id ∧
        ∀ w ∈ pySplit (lowerStr query), likeContains si.word w = true) ∧
      (0 ≤ limit →
        (db.chapters.filter (qualifies db (pySplit (lowerStr query)) bf)).length
          ≤ limit.toNat →
        ∀ c ∈ db.chapters, qualifies db (pySplit (lowerStr query)) bf c = true →
          ∃ h ∈ hits, h.chapter_id = c.id) := by
  intro db query bf limit hits hok
  have hdec := full_text_search_ok hok
  constructor
  · intro h hh
    rw [hdec] at hh
    have hh2 : h ∈ (List.insertionSort (chapterLe db (pySplit (lowerStr query)))
        (db.chapters.filter (qualifies db (pySplit (lowerStr query)) bf))).map
          (mkHit db (pySplit (lowerStr query))) := by
      unfold applyLimit at hh
      split at hh
      · exact hh
      · exact List.take_subset _ _ hh
    obtain ⟨c, hc, rfl⟩ := List.mem_map.mp hh2
    have hcq : c ∈ db.chapters.filter (qualifies db (pySplit (lowerStr query)) bf) :=
      (List.mem_insertionSort _).mp hc
    obtain ⟨si, hmem, hid, hall⟩ := exists_matching_occurrence (List.mem_filter.mp hcq).2
    exact ⟨si, hmem, hid, hall⟩
  · intro hlim hlen c hcmem hcq
    have hcqual : c ∈ db.chapters.filter (qualifies db (pySplit (lowerStr query)) bf) :=
      List.mem_filter.mpr ⟨hcmem, hcq⟩
    have hcs : c ∈ List.insertionSort (chapterLe db (pySplit (lowerStr query)))
        (db.chapters.filter (qualifies db (pySplit (lowerStr query)) bf)) :=
      (List.mem_insertionSort _).mpr hcqual
    have hmm := List.mem_map_of_mem (mkHit db (pySplit (lowerStr query))) hcs
    have hlen2 : ((List.insertionSort (chapterLe db (pySplit (lowerStr query)))
        (db.chapters.filter (qualifies db (pySplit (lowerStr query)) bf))).map
          (mkHit db (pySplit (lowerStr query)))).length ≤ limit.toNat := by
      rw [List.length_map, (List.perm_insertionSort _ _).length_eq]
      exact hlen
    have happ : applyLimit limit ((List.insertionSort (chapterLe db (pySplit (lowerStr query)))
        (db.chapters.filter (qualifies db (pySplit (lowerStr query)) bf))).map
          (mkHit db (pySplit (lowerStr query)))) =
        (List.insertionSort (chapterLe db (pySplit (lowerStr query)))
          (db.chapters.filter (qualifies db (pySplit (lowerStr query)) bf))).map
            (mkHit db (pySplit (lowerStr query))) := by
      unfold applyLimit
      rw [if_neg (by omega : ¬ limit < 0), List.take_of_length_le hlen2]
    rw [hdec, happ]
    exact ⟨mkHit db (pySplit (lowerStr query)) c, hmm, rfl⟩

/-- The hit list of the witness run for C1. -/
def C1WitnessHits : List Hit :=
  (full_text_search (some exDb1) "wudu" none 20).toOption.getD []

/-- C1 witness: the amended characterization instantiated on the concrete
store `exDb1` with the query "wudu". -/
theorem C1_per_occurrence_conjunction_witness :
    full_text_search (some exDb1) "wudu" none 20 = Except.ok C1WitnessHits ∧
    ((∀ h ∈ C1WitnessHits, ∃ si ∈ exDb1.search_index, si.chapter_id = h.chapter_id ∧
        ∀ w ∈ pySplit (lowerStr "wudu"), likeContains si.word w = true) ∧
      (0 ≤ (20 : Int) →
        (exDb1.chapters.filter (qualifies exDb1 (pySplit (lowerStr "wudu")) none)).length
          ≤ (20 : Int).toNat →
        ∀ c ∈ exDb1.chapters, qualifies exDb1 (pySplit (lowerStr "wudu")) none c = true →
          ∃ h ∈ C1WitnessHits, h.chapter_id = c.id)) :=
  ⟨rfl, C1_per_occurrence_conjunction exDb1 "wudu" none 20 C1WitnessHits rfl⟩

/-- C3 amended: a `full_text` result list is capped at `limit` (for a
nonnegative limit), every hit's book title contains the book filter when one
is given (the filter is part of the row conditions applied before grouping),
and the hits are ordered by the key (case value of the chapter's first
surviving occurrence — 1 when that occurrence's token equals the first query
term, else 2 — then ascending chapter number); exact matches appearing in a
later occurrence of a chapter do not promote it. -/
theorem C3_ordering_and_limit :
    ∀ (db : Database) (query : String) (bf : Option String) (limit : Int) (hits : List Hit),
      full_text_search (some db) query bf limit = Except.ok hits →
      (0 ≤ limit → hits.length ≤ limit.toNat) ∧
      (∀ f, bf = some f → ∀ h ∈ hits, likeContains h.book_title f = true) ∧
      List.Pairwise (fun h1 h2 =>
        keyLe (sortKey db (pySplit (lowerStr query)) h1.chapter_id h1.chapter_number)
              (sortKey db (pySplit (lowerStr query)) h2.chapter_id h2.chapter_number)) hits := by
  intro db query bf limit hits hok
  have hdec := full_text_search_ok hok
  refine ⟨?_, ?_, ?_⟩
  · intro h0
    rw [hdec]
    unfold applyLimit
    rw [if_neg (by omega : ¬ limit < 0)]
    simp [List.length_take]
  · intro f hbf h hh
    rw [hdec] at hh
    have hh2 : h ∈ (List.insertionSort (chapterLe db (pySplit (lowerStr query)))
        (db.chapters.filter (qualifies db (pySplit (lowerStr query)) bf))).map
          (mkHit db (pySplit (lowerStr query))) := by
      unfold applyLimit at hh
      split at hh
      · exact hh
      · exact List.take_subset _ _ hh
    obtain ⟨c, hc, rfl⟩ := List.mem_map.mp hh2
    have hcq := (List.mem_filter.mp ((List.mem_insertionSort _).mp hc)).2
    unfold qualifies at hcq
    rw [Bool.and_eq_true] at hcq
    have hpass := hcq.2
    unfold passesBookFilter at hpass
    cases hb : bookOf db c with
    | none => rw [hb] at hpass; exact absurd hpass (by simp)
    | some b =>
      rw [hb, hbf] at hpass
      show likeContains (mkHit db (pySplit (lowerStr query)) c).book_title f = true
      unfold mkHit
      rw [hb]
      exact hpass
  · rw [hdec]
    have hs : List.Sorted (chapterLe db (pySplit (lowerStr query)))
        (List.insertionSort (chapterLe db (pySplit (lowerStr query)))
          (db.chapters.filter (qualifies db (pySplit (lowerStr query)) bf))) :=
      List.sorted_insertionSort _ _
    have hmap : List.Pairwise (fun h1 h2 =>
        keyLe (sortKey db (pySplit (lowerStr query)) h1.chapter_id h1.chapter_number)
              (sortKey db (pySplit (lowerStr query)) h2.chapter_id h2.chapter_number))
        ((List.insertionSort (chapterLe db (pySplit (lowerStr query)))
          (db.chapters.filter (qualifies db (pySplit (lowerStr query)) bf))).map
            (mkHit db (pySplit (lowerStr query)))) :=
      hs.map (mkHit db (pySplit (lowerStr query))) (fun a b hab => hab)
    unfold applyLimit
    split
    · exact hmap
    · exact hmap.sublist (List.take_sublist _ _)

/-- The hit list of the witness run for C3. -/
def C3WitnessHits : List Hit :=
  (full_text_search (some exDb3) "wudu" none 20).toOption.getD []

/-- C3 witness: the amended ordering statement instantiated on `exDb3`. -/
theorem C3_ordering_and_limit_witness :
    full_text_search (some exDb3) "wudu" none 20 = Except.ok C3WitnessHits ∧
    ((0 ≤ (20 : Int) → C3WitnessHits.length ≤ (20 : Int).toNat) ∧
      (∀ f, (none : Option String) = some f →
        ∀ h ∈ C3WitnessHits, likeContains h.book_title f = true) ∧
      List.Pairwise (fun h1 h2 =>
        keyLe (sortKey exDb3 (pySplit (lowerStr "wudu")) h1.chapter_id h1.chapter_number)
              (sortKey exDb3 (pySplit (lowerStr "wudu")) h2.chapter_id h2.chapter_number))
        C3WitnessHits) :=
  ⟨rfl, C3_ordering_and_limit exDb3 "wudu" none 20 C3WitnessHits rfl⟩

/-- The context window as worded by the spec: the tokens at indices
`[max(0,p-3), min(len,p+4))` (note `p - 3` on `Nat` is `max 0 (p-3)`). -/
def specWindow (words : List String) (p : Nat) : List String :=
  (List.range' (p - 3) (min words.length (p + 4) - (p - 3))).map (fun i => words.getD i "")

/-- Reading `k` consecutive elements by index equals the slice. -/
theorem map_getD_range' (words : List String) :
    ∀ (k a : Nat), a + k ≤ words.length →
      (List.range' a k).map (fun i => words.getD i "") = (words.drop a).take k := by
  intro k
  induction k with
  | zero => intro a _; simp
  | succ n ih =>
    intro a ha
    have halen : a < words.length := by omega
    rw [List.range'_succ a n 1, List.map_cons, ih (a + 1) (by omega),
      List.drop_eq_get_cons halen, List.take_succ_cons]
    congr 1
    rw [List.getD_eq_get?, List.get?_eq_get halen]
    rfl

/-- The window actually computed by `index_chapter_content` coincides with the
spec's index-interval description. -/
theorem contextWindow_eq_specWindow (words : List String) (p : Nat)
    (hp : p < words.length) :
    contextWindow words p = joinSep " " (specWindow words p) := by
  unfold contextWindow specWindow
  rw [map_getD_range' words (min words.length (p + 4) - (p - 3)) (p - 3) (by omega)]

/-- C4 amended: the index builder emits one occurrence per word-boundary token
of the case-folded content, whose context is the tokens at indices
`[max(0,p-3), min(len,p+4))` joined by spaces; for the content
"alpha beta gamma Allah delta epsilon zeta" the occurrence at position 3 has
the case-folded context "alpha beta gamma allah delta epsilon zeta", the
domain-term flag set, and category "transliterated". -/
theorem C4_context_window :
    (∀ content : String,
      (index_chapter_content content).length = (tokenizeContent content).length) ∧
    (∀ (content : String) (p : Nat), p < (tokenizeContent content).length →
      ((index_chapter_content content).get? p).map OccData.context
        = some (joinSep " " (specWindow (tokenizeContent content) p))) ∧
    (index_chapter_content "alpha beta gamma Allah delta epsilon zeta").get? 3 =
      some { word := "allah", position := 3,
             context := "alpha beta gamma allah delta epsilon zeta",
             is_islamic_term := true, term_type := some "transliterated" } := by
  refine ⟨?_, ?_, rfl⟩
  · intro content
    unfold index_chapter_content
    simp
  · intro content p hp
    unfold index_chapter_content
    rw [List.get?_map, List.get?_enum, List.get?_eq_get hp]
    simp only [Option.map_some']
    rw [contextWindow_eq_specWindow _ _ hp]

/-- C4 witness: the window description instantiated at the example content and
position 3. -/
theorem C4_context_window_witness :
    3 < (tokenizeContent "alpha beta gamma Allah delta epsilon zeta").length ∧
    ((index_chapter_content "alpha beta gamma Allah delta epsilon zeta").get? 3).map
        OccData.context
      = some (joinSep " "
          (specWindow (tokenizeContent "alpha beta gamma Allah delta epsilon zeta") 3)) :=
  ⟨by decide,
    C4_context_window.2.1 "alpha beta gamma Allah delta epsilon zeta" 3 (by decide)⟩

/-! ### Characterization of the book-marker loop (C5) -/

/-- Every header line of the text, with its 0-based line number and captured
book name, in line order. -/
def headerLines (lines : List String) : List (Nat × String) :=
  lines.enum.filterMap (fun p => (parseBookHeader p.2).map (fun n => (p.1, n)))

/-- Keep-first deduplication by name; `seen` holds the names already kept. -/
def dkf (seen : List String) : List (Nat × String) → List (Nat × String)
  | [] => []
  | p :: rest => if p.2 ∈ seen then dkf seen rest else p :: dkf (p.2 :: seen) rest

/-- The claim's marker list: the header occurrences whose name has no earlier
header occurrence in the text. -/
def specFirstMarkers (lines : List String) : List (Nat × String) :=
  (headerLines lines).filter (fun p =>
    (headerLines lines).all (fun q => q.2 ≠ p.2 || p.1 ≤ q.1))

theorem dkf_congr : ∀ (l : List (Nat × String)) (s1 s2 : List String),
    (∀ x, x ∈ s1 ↔ x ∈ s2) → dkf s1 l = dkf s2 l
  | [], _, _, _ => rfl
  | p :: rest, s1, s2, h => by
    unfold dkf
    by_cases hp : p.2 ∈ s1
    · rw [if_pos hp, if_pos ((h p.2).mp hp)]
      exact dkf_congr rest s1 s2 h
    · rw [if_neg hp, if_neg (fun hc => hp ((h p.2).mpr hc))]
      refine congrArg _ (dkf_congr rest _ _ ?_)
      intro x
      simp only [List.mem_cons]
      exact or_congr Iff.rfl (h x)

/-- The accumulator fold of `segment_into_books` is append plus keep-first
deduplication of the parsed header lines. -/
theorem foldl_bookMarkerStep : ∀ (l : List (Nat × String)) (acc : List (Nat × String)),
    l.foldl bookMarkerStep acc
      = acc ++ dkf (acc.map (fun m => m.2))
          (l.filterMap (fun p => (parseBookHeader p.2).map (fun n => (p.1, n)))) := by
  intro l
  induction l with
  | nil => intro acc; simp [dkf]
  | cons p rest ih =>
    intro acc
    rw [List.foldl_cons, List.filterMap_cons]
    cases hp : parseBookHeader p.2 with
    | none =>
      have hstep : bookMarkerStep acc p = acc := by
        unfold bookMarkerStep
        rw [hp]
      rw [hstep]
      simp only [Option.map_none']
      exact ih acc
    | some name =>
      simp only [Option.map_some']
      have hany : (acc.any fun m => m.2 = name) = true ↔ name ∈ acc.map (fun m => m.2) := by
        rw [List.any_eq_true]
        constructor
        · rintro ⟨m, hm, hdec⟩
          exact List.mem_map.mpr ⟨m, hm, of_decide_eq_true hdec⟩
        · intro hm
          obtain ⟨m, hm2, he⟩ := List.mem_map.mp hm
          exact ⟨m, hm2, decide_eq_true he⟩
      by_cases hseen : name ∈ acc.map (fun m => m.2)
      · have hstep : bookMarkerStep acc p = acc := by
          unfold bookMarkerStep
          rw [hp]
          simp only [hany.mpr hseen, if_true]
        rw [hstep, ih acc]
        have hdk : dkf (acc.map fun m => m.2) ((p.1, name) ::
            rest.filterMap (fun p => (parseBookHeader p.2).map (fun n => (p.1, n))))
            = dkf (acc.map fun m => m.2)
                (rest.filterMap (fun p => (parseBookHeader p.2).map (fun n => (p.1, n)))) := by
          simp only [dkf]
          rw [if_pos hseen]
        rw [hdk]
      · have hanyf : (acc.any fun m => m.2 = name) = false :=
          Bool.eq_false_iff.mpr (fun hc => hseen (hany.mp hc))
        have hstep : bookMarkerStep acc p = acc ++ [(p.1, name)] := by
          unfold bookMarkerStep
          rw [hp]
          simp [hanyf]
        rw [hstep, ih (acc ++ [(p.1, name)])]
        have hdk : dkf (acc.map fun m => m.2) ((p.1, name) ::
            rest.filterMap (fun p => (parseBookHeader p.2).map (fun n => (p.1, n))))
            = (p.1, name) :: dkf (name :: acc.map (fun m => m.2))
                (rest.filterMap (fun p => (parseBookHeader p.2).map (fun n => (p.1, n)))) := by
          simp only [dkf]
          rw [if_neg hseen]
        rw [hdk]
        have hmapapp : (acc ++ [(p.1, name)]).map (fun m => m.2)
            = acc.map (fun m => m.2) ++ [name] := by simp
        rw [hmapapp]
        rw [dkf_congr _ (acc.map (fun m => m.2) ++ [name]) (name :: acc.map (fun m => m.2))
          (by intro x; simp [or_comm])]
        simp

/-- Keep-first deduplication of a line-ordered list is the first-occurrence
filter. -/
theorem dkf_eq_filter : ∀ (l : List (Nat × String)) (seen : List String),
    l.Pairwise (fun a b => a.1 < b.1) →
    dkf seen l = l.filter (fun p =>
      !decide (p.2 ∈ seen) && l.all (fun q => q.2 ≠ p.2 || p.1 ≤ q.1)) := by
  intro l
  induction l with
  | nil => intro seen _; rfl
  | cons p rest ih =>
    intro seen hpw
    have hpw' : rest.Pairwise (fun a b => a.1 < b.1) := (List.pairwise_cons.mp hpw).2
    have hhead : ∀ q ∈ rest, p.1 < q.1 := (List.pairwise_cons.mp hpw).1
    unfold dkf
    rw [List.filter_cons]
    by_cases hp : p.2 ∈ seen
    · rw [if_pos hp]
      have hpred : (!decide (p.2 ∈ seen) &&
          ((p :: rest).all (fun q => q.2 ≠ p.2 || p.1 ≤ q.1))) = false := by
        simp [hp]
      rw [hpred]
      simp only [Bool.false_eq_true, if_false]
      rw [ih seen hpw']
      refine List.filter_congr ?_
      intro q hq
      have hql : p.1 < q.1 := hhead q hq
      by_cases hqs : q.2 ∈ seen
      · simp [hqs]
      · have hqp : q.2 ≠ p.2 := fun hc => hqs (hc ▸ hp)
        have h1 : decide (p.2 ≠ q.2) = true := decide_eq_true (fun hc => hqp hc.symm)
        simp [hqs, List.all_cons, h1]
        exact fun _ => Or.inl (fun hc => hqp hc.symm)
    · rw [if_neg hp]
      have hpred : (!decide (p.2 ∈ seen) &&
          ((p :: rest).all (fun q => q.2 ≠ p.2 || p.1 ≤ q.1))) = true := by
        simp only [Bool.and_eq_true, Bool.not_eq_true', decide_eq_false_iff_not]
        refine ⟨hp, ?_⟩
        rw [List.all_cons]
        simp only [Bool.and_eq_true]
        constructor
        · simp
        · rw [List.all_eq_true]
          intro q hq
          have := hhead q hq
          simp [Nat.le_of_lt this]
      rw [hpred]
      simp only [if_true]
      rw [ih (p.2 :: seen) hpw']
      refine congrArg _ (List.filter_congr ?_)
      intro q hq
      have hql : p.1 < q.1 := hhead q hq
      have hnle : ¬ (q.1 ≤ p.1) := by omega
      by_cases hqs : q.2 ∈ seen
      · simp [hqs]
      · by_cases hqp : q.2 = p.2
        · simp [hqs, hqp, List.all_cons, hnle]
        · simp [hqs, hqp, List.all_cons, Ne.symm hqp]

theorem pairwise_enum_fst_lt (l : List α) : (l.enum).Pairwise (fun a b => a.1 < b.1) := by
  rw [List.pairwise_iff_getElem]
  intro i j hi hj hij
  simp only [List.getElem_enum]
  exact hij

theorem pairwise_headerLines (lines : List String) :
    (headerLines lines).Pairwise (fun a b => a.1 < b.1) := by
  unfold headerLines
  refine List.pairwise_filterMap.mpr ?_
  refine (pairwise_enum_fst_lt lines).imp ?_
  intro a b hab x hx y hy
  have hx1 : x.1 = a.1 := by
    cases hpa : parseBookHeader a.2 with
    | none => rw [hpa] at hx; simp at hx
    | some n => rw [hpa] at hx; simp at hx; rw [← hx]
  have hy1 : y.1 = b.1 := by
    cases hpb : parseBookHeader b.2 with
    | none => rw [hpb] at hy; simp at hy
    | some n => rw [hpb] at hy; simp at hy; rw [← hy]
  rw [hx1, hy1]
  exact hab

/-- The marker loop of `segment_into_books` collects exactly the first
occurrence of each distinct book name, in line order. -/
theorem bookMarkers_eq (lines : List String) :
    bookMarkers lines = specFirstMarkers lines := by
  have h1 : bookMarkers lines = dkf [] (headerLines lines) := by
    unfold bookMarkers headerLines
    rw [foldl_bookMarkerStep]
    rfl
  rw [h1, dkf_eq_filter _ _ (pairwise_headerLines lines)]
  unfold specFirstMarkers
  refine List.filter_congr ?_
  intro q _
  simp

/-- The claim's reading of book segmentation, built from the first-occurrence
markers. -/
def specBooks (text : String) : List Book :=
  let lines := splitLines text
  let ms := specFirstMarkers lines
  ms.enum.map (fun p =>
    let s := p.2.1
    let e := match ms.get? (p.1 + 1) with
      | some m2 => m2.1
      | none => lines.length
    { book_number := p.1 + 1
      title := p.2.2
      start_line := s + 1
      end_line := e
      content := joinSep "\n" ((lines.drop s).take (e - s))
      line_count := e - s })

/-- C5: book segmentation is exactly the claim's description — only
book-header lines open segments, duplicate names are ignored, and each
distinct name's first occurrence starts a book running to the next distinct
name's first header line or to end of text. -/
theorem C5_book_boundaries : ∀ text : String, segment_into_books text = specBooks text := by
  intro text
  simp only [segment_into_books, specBooks, bookMarkers_eq]

/-! ### Marker positions and segment bounds (C6, C10) -/

theorem mem_headerLines {lines : List String} {m : Nat × String}
    (h : m ∈ headerLines lines) :
    ∃ line, lines.get? m.1 = some line ∧ parseBookHeader line = some m.2 := by
  unfold headerLines at h
  obtain ⟨p, hp, hmap⟩ := List.mem_filterMap.mp h
  cases hparse : parseBookHeader p.2 with
  | none => rw [hparse] at hmap; simp at hmap
  | some n =>
    rw [hparse] at hmap
    simp only [Option.map_some', Option.some_inj] at hmap
    have hget : lines.get? p.1 = some p.2 := List.mem_enum_iff_get?.mp hp
    refine ⟨p.2, ?_, ?_⟩
    · rw [← hmap]; exact hget
    · rw [← hmap]; exact hparse

theorem pairwise_bookMarkers (lines : List String) :
    (bookMarkers lines).Pairwise (fun a b => a.1 < b.1) := by
  rw [bookMarkers_eq]
  exact (pairwise_headerLines lines).sublist (List.filter_sublist _)

theorem mem_bookMarkers {lines : List String} {m : Nat × String}
    (h : m ∈ bookMarkers lines) :
    ∃ line, lines.get? m.1 = some line ∧ parseBookHeader line = some m.2 := by
  rw [bookMarkers_eq] at h
  exact mem_headerLines (List.mem_of_mem_filter h)

theorem bookMarkers_lt_length {lines : List String} {m : Nat × String}
    (h : m ∈ bookMarkers lines) : m.1 < lines.length := by
  obtain ⟨line, hl, _⟩ := mem_bookMarkers h
  exact (List.get?_eq_some.mp hl).choose

theorem mem_chapterMarkers {lines : List String} {m : Nat × String}
    (h : m ∈ chapterMarkers lines) :
    ∃ line, lines.get? m.1 = some line ∧ pyStrip line = m.2 ∧
      isChapterMarkerLine m.2 = true := by
  unfold chapterMarkers at h
  obtain ⟨p, hp, hmap⟩ := List.mem_filterMap.mp h
  by_cases hc : isChapterMarkerLine (pyStrip p.2) = true
  · rw [if_pos hc] at hmap
    simp only [Option.some_inj] at hmap
    have hget : lines.get? p.1 = some p.2 := List.mem_enum_iff_get?.mp hp
    refine ⟨p.2, ?_, ?_, ?_⟩
    · rw [← hmap]; exact hget
    · rw [← hmap]
    · rw [← hmap]; exact hc
  · rw [if_neg hc] at hmap
    simp at hmap

theorem chapterMarkers_lt_length {lines : List String} {m : Nat × String}
    (h : m ∈ chapterMarkers lines) : m.1 < lines.length := by
  obtain ⟨line, hl, _⟩ := mem_chapterMarkers h
  exact (List.get?_eq_some.mp hl).choose

theorem pairwise_chapterMarkers (lines : List String) :
    (chapterMarkers lines).Pairwise (fun a b => a.1 < b.1) := by
  unfold chapterMarkers
  refine List.pairwise_filterMap.mpr ?_
  refine (pairwise_enum_fst_lt lines).imp ?_
  intro a b hab x hx y hy
  have hx1 : x.1 = a.1 := by
    by_cases hc : isChapterMarkerLine (pyStrip a.2) = true
    · rw [if_pos hc] at hx; simp at hx; rw [← hx]
    · rw [if_neg hc] at hx; simp at hx
  have hy1 : y.1 = b.1 := by
    by_cases hc : isChapterMarkerLine (pyStrip b.2) = true
    · rw [if_pos hc] at hy; simp at hy; rw [← hy]
    · rw [if_neg hc] at hy; simp at hy
  rw [hx1, hy1]
  exact hab

/-- For strictly line-ordered markers bounded by the text length, a marker's
line plus one never exceeds the next marker's line (or the text length for
the last marker). -/
theorem seg_start_le_end {ms : List (Nat × String)} {len : Nat}
    (hpw : ms.Pairwise (fun a b => a.1 < b.1)) (hbd : ∀ m ∈ ms, m.1 < len) :
    ∀ p ∈ ms.enum,
      p.2.1 + 1 ≤ (match ms.get? (p.1 + 1) with
        | some m2 => m2.1
        | none => len) := by
  intro p hp
  have hget : ms.get? p.1 = some p.2 := List.mem_enum_iff_get?.mp hp
  cases hnext : ms.get? (p.1 + 1) with
  | none =>
    have hm : p.2 ∈ ms := List.get?_mem hget
    have := hbd p.2 hm
    show p.2.1 + 1 ≤ len
    omega
  | some m2 =>
    obtain ⟨h1, e1⟩ := List.get?_eq_some.mp hget
    obtain ⟨h2, e2⟩ := List.get?_eq_some.mp hnext
    have hlt := (List.pairwise_iff_get.mp hpw) ⟨p.1, h1⟩ ⟨p.1 + 1, h2⟩ (by
      simp [Fin.mk_lt_mk])
    rw [e1, e2] at hlt
    show p.2.1 + 1 ≤ m2.1
    omega

/-- Chapters of any book content have `start_line ≤ end_line`. -/
theorem chapters_start_le_end (content t : String) :
    ∀ ch ∈ segment_into_chapters content t, ch.start_line ≤ ch.end_line := by
  intro ch hch
  simp only [segment_into_chapters] at hch
  obtain ⟨p, hp, hcheq⟩ := List.mem_map.mp hch
  have := seg_start_le_end (pairwise_chapterMarkers (splitLines content))
    (fun m hm => chapterMarkers_lt_length hm) p hp
  rw [← hcheq]
  exact this

/-- C6 amended: every produced Book and every produced Chapter satisfies
`start_line ≤ end_line`; the inequality is not strict for non-final segments
whose marker is immediately followed by the next marker (nor for a final
marker on the last line). -/
theorem C6_start_le_end :
    ∀ text : String,
      (∀ b ∈ segment_into_books text, b.start_line ≤ b.end_line) ∧
      (∀ b ∈ segment_into_books text, ∀ ch ∈ segment_into_chapters b.content b.title,
        ch.start_line ≤ ch.end_line) := by
  intro text
  constructor
  · intro b hb
    simp only [segment_into_books] at hb
    obtain ⟨p, hp, hbeq⟩ := List.mem_map.mp hb
    have := seg_start_le_end (pairwise_bookMarkers (splitLines text))
      (fun m hm => bookMarkers_lt_length hm) p hp
    rw [← hbeq]
    exact this
  · intro b _ ch hch
    exact chapters_start_le_end b.content b.title ch hch

/-- The text, book and chapter used as concrete instances for the C6 and C10
witnesses. -/
def witText : String :=
  "BOOK I: ALPHA\nThe Chapter Of Cleanliness\nalpha text\nBOOK II: BETA\nThe Chapter Of Prayer\nbeta text"

def witBook : Book :=
  { book_number := 2, title := "BETA", start_line := 4, end_line := 6,
    content := "BOOK II: BETA\nThe Chapter Of Prayer\nbeta text", line_count := 3 }

def witChapter : Chapter :=
  { chapter_number := 1, title := "Prayer", start_line := 2, end_line := 3,
    content := "The Chapter Of Prayer\nbeta text", line_count := 2 }

/-- C6 witness: the amended bound instantiated on a concrete segmentation. -/
theorem C6_start_le_end_witness :
    witBook ∈ segment_into_books witText ∧
    witChapter ∈ segment_into_chapters witBook.content witBook.title ∧
    witBook.start_line ≤ witBook.end_line ∧
    witChapter.start_line ≤ witChapter.end_line := by
  refine ⟨by decide, by decide, ?_, ?_⟩
  · exact (C6_start_le_end witText).1 witBook (by decide)
  · exact (C6_start_le_end witText).2 witBook (by decide) witChapter (by decide)

/-! ### Joining and re-splitting lines (C10) -/

theorem splitCharAux_ne_nil (sep : Char) (cs : List Char) : splitCharAux sep cs ≠ [] := by
  induction cs with
  | nil => simp [splitCharAux]
  | cons c rest ih =>
    simp only [splitCharAux]
    by_cases h : c = sep
    · simp [h]
    · rw [if_neg h]
      cases hs : splitCharAux sep rest with
      | nil => simp
      | cons g gs => simp

theorem not_sep_mem_splitCharAux (sep : Char) : ∀ (cs g : List Char),
    g ∈ splitCharAux sep cs → sep ∉ g := by
  intro cs
  induction cs with
  | nil =>
    intro g hg
    simp [splitCharAux] at hg
    simp [hg]
  | cons c rest ih =>
    intro g hg
    simp only [splitCharAux] at hg
    by_cases h : c = sep
    · rw [if_pos h] at hg
      rcases List.mem_cons.mp hg with h1 | h2
      · simp [h1]
      · exact ih g h2
    · rw [if_neg h] at hg
      cases hs : splitCharAux sep rest with
      | nil => exact absurd hs (splitCharAux_ne_nil sep rest)
      | cons g0 gs =>
        rw [hs] at hg
        have hg0 : g0 ∈ splitCharAux sep rest := by
          rw [hs]; exact List.mem_cons_self g0 gs
        rcases List.mem_cons.mp hg with h1 | h2
        · subst h1
          intro hmem
          rcases List.mem_cons.mp hmem with hc | hgm
          · exact h hc.symm
          · exact ih g0 hg0 hgm
        · refine ih g ?_
          rw [hs]
          exact List.mem_cons_of_mem g0 h2

theorem splitCharAux_append (sep : Char) : ∀ (xs ys : List Char), sep ∉ xs →
    ∃ g gs, splitCharAux sep ys = g :: gs ∧
      splitCharAux sep (xs ++ ys) = (xs ++ g) :: gs := by
  intro xs
  induction xs with
  | nil =>
    intro ys _
    cases hs : splitCharAux sep ys with
    | nil => exact absurd hs (splitCharAux_ne_nil sep ys)
    | cons g gs => exact ⟨g, gs, rfl, by simp [hs]⟩
  | cons x xs ih =>
    intro ys hmem
    have hx : x ≠ sep := fun hc => hmem (hc ▸ List.mem_cons_self x xs)
    have hxs : sep ∉ xs := fun hc => hmem (List.mem_cons_of_mem x hc)
    obtain ⟨g, gs, hy, happ⟩ := ih ys hxs
    refine ⟨g, gs, hy, ?_⟩
    rw [List.cons_append]
    simp only [splitCharAux]
    rw [if_neg hx, happ]
    rfl

theorem splitLines_no_newline {text s : String} (h : s ∈ splitLines text) :
    ('\n' : Char) ∉ s.data := by
  unfold splitLines splitChar at h
  obtain ⟨g, hg, hs⟩ := List.mem_map.mp h
  rw [← hs]
  exact not_sep_mem_splitCharAux '\n' text.data g hg

theorem splitCharAux_of_not_mem (sep : Char) (cs : List Char) (h : sep ∉ cs) :
    splitCharAux sep cs = [cs] := by
  obtain ⟨g, gs, h1, h2⟩ := splitCharAux_append sep cs [] h
  have h1' : ([] : List Char) :: ([] : List (List Char)) = g :: gs := by
    rw [← h1]; rfl
  injection h1' with hg hgs
  rw [List.append_nil] at h2
  rw [h2, ← hg, ← hgs]
  simp

/-- Joining line strings that contain no newline with a newline separator and
re-splitting recovers the list. -/
theorem splitLines_joinSep : ∀ (l : List String), l ≠ [] →
    (∀ s ∈ l, ('\n' : Char) ∉ s.data) → splitLines (joinSep "\n" l) = l := by
  intro l
  induction l with
  | nil => intro h _; exact absurd rfl h
  | cons s rest ih =>
    intro _ hnl
    cases rest with
    | nil =>
      show splitLines (joinSep "\n" [s]) = [s]
      unfold joinSep splitLines splitChar
      rw [splitCharAux_of_not_mem '\n' s.data (hnl s (List.mem_cons_self s []))]
      rfl
    | cons t rest2 =>
      have hnls : ('\n' : Char) ∉ s.data := hnl s (List.mem_cons_self s (t :: rest2))
      have hnlrest : ∀ x ∈ t :: rest2, ('\n' : Char) ∉ x.data :=
        fun x hx => hnl x (List.mem_cons_of_mem s hx)
      have hij := ih (by simp) hnlrest
      show splitLines (s ++ "\n" ++ joinSep "\n" (t :: rest2)) = s :: t :: rest2
      unfold splitLines splitChar
      have hdata : (s ++ "\n" ++ joinSep "\n" (t :: rest2)).data
          = s.data ++ '\n' :: (joinSep "\n" (t :: rest2)).data := by
        rw [String.data_append, String.data_append]
        simp
      rw [hdata]
      obtain ⟨g, gs, h1, h2⟩ :=
        splitCharAux_append '\n' s.data ('\n' :: (joinSep "\n" (t :: rest2)).data) hnls
      have h1' : ([] : List Char) :: splitCharAux '\n' (joinSep "\n" (t :: rest2)).data
          = g :: gs := by
        rw [← h1]
        simp [splitCharAux]
      injection h1' with hg hgs
      rw [h2, ← hg, ← hgs, List.append_nil]
      rw [List.map_cons]
      unfold splitLines splitChar at hij
      rw [hij]

/-- The `end_line` expression of a segment never exceeds the text length. -/
theorem seg_end_le_len {ms : List (Nat × String)} {len : Nat}
    (hbd : ∀ m ∈ ms, m.1 < len) (i : Nat) :
    (match ms.get? (i + 1) with | some m2 => m2.1 | none => len) ≤ len := by
  cases hnext : ms.get? (i + 1) with
  | none => show len ≤ len; exact le_rfl
  | some m2 => show m2.1 ≤ len; exact le_of_lt (hbd m2 (List.get?_mem hnext))

/-- Line facts for every chapter of a segmented content: 1-based start within
the content, end within the content, and a chapter-marker line at the
chapter's own `start_line` offset of that content. -/
theorem chapters_line_facts (content t : String) :
    ∀ ch ∈ segment_into_chapters content t,
      1 ≤ ch.start_line ∧ ch.start_line ≤ (splitLines content).length ∧
      ch.end_line ≤ (splitLines content).length ∧
      ∃ mline, (splitLines content).get? (ch.start_line - 1) = some mline ∧
        isChapterMarkerLine (pyStrip mline) = true := by
  intro ch hch
  simp only [segment_into_chapters] at hch
  obtain ⟨p, hp, hcheq⟩ := List.mem_map.mp hch
  have hget : (chapterMarkers (splitLines content)).get? p.1 = some p.2 :=
    List.mem_enum_iff_get?.mp hp
  have hmem : p.2 ∈ chapterMarkers (splitLines content) := List.get?_mem hget
  obtain ⟨mline, hml, hstrip, hmark⟩ := mem_chapterMarkers hmem
  have hlt : p.2.1 < (splitLines content).length := chapterMarkers_lt_length hmem
  have hend := seg_end_le_len
    (fun m (hm : m ∈ chapterMarkers (splitLines content)) =>
      chapterMarkers_lt_length hm) p.1
  subst hcheq
  refine ⟨?_, ?_, ?_, mline, ?_, ?_⟩
  · show 1 ≤ p.2.1 + 1
    omega
  · show p.2.1 + 1 ≤ (splitLines content).length
    omega
  · show (match (chapterMarkers (splitLines content)).get? (p.1 + 1) with
      | some m2 => m2.1
      | none => (splitLines content).length) ≤ (splitLines content).length
    exact hend
  · show (splitLines content).get? (p.2.1 + 1 - 1) = some mline
    simpa using hml
  · rw [hstrip]
    exact hmark

/-- C10: a chapter's `start_line`/`end_line` are 1-based offsets within its
owning book's content slice — the slice whose first line is the book's own
header line — so chapter line numbers restart from the slice beginning in
every book, rather than continuing the whole document's numbering. -/
theorem C10_chapter_lines_relative_to_book :
    ∀ text : String, ∀ b ∈ segment_into_books text,
      (∃ hline, (splitLines b.content).get? 0 = some hline ∧
        parseBookHeader hline = some b.title) ∧
      ∀ ch ∈ segment_into_chapters b.content b.title,
        1 ≤ ch.start_line ∧ ch.start_line ≤ (splitLines b.content).length ∧
        ch.end_line ≤ (splitLines b.content).length ∧
        ∃ mline, (splitLines b.content).get? (ch.start_line - 1) = some mline ∧
          isChapterMarkerLine (pyStrip mline) = true := by
  intro text b hb
  refine ⟨?_, fun ch hch => chapters_line_facts b.content b.title ch hch⟩
  simp only [segment_into_books] at hb
  obtain ⟨p, hp, hbeq⟩ := List.mem_map.mp hb
  have hget : (bookMarkers (splitLines text)).get? p.1 = some p.2 :=
    List.mem_enum_iff_get?.mp hp
  have hmem : p.2 ∈ bookMarkers (splitLines text) := List.get?_mem hget
  obtain ⟨hline, hhl, hparse⟩ := mem_bookMarkers hmem
  have hslt : p.2.1 < (splitLines text).length := bookMarkers_lt_length hmem
  have hse := seg_start_le_end (pairwise_bookMarkers (splitLines text))
    (fun m hm => bookMarkers_lt_length hm) p hp
  have hend := seg_end_le_len
    (fun m (hm : m ∈ bookMarkers (splitLines text)) => bookMarkers_lt_length hm) p.1
  set lines := splitLines text with hlines
  set e := (match (bookMarkers lines).get? (p.1 + 1) with
    | some m2 => m2.1
    | none => lines.length) with he
  have hslice : ((lines.drop p.2.1).take (e - p.2.1)).length = e - p.2.1 := by
    rw [List.length_take, List.length_drop]
    omega
  have hne : (lines.drop p.2.1).take (e - p.2.1) ≠ [] := by
    intro hc
    rw [hc] at hslice
    simp at hslice
    omega
  have hsub : ∀ x ∈ (lines.drop p.2.1).take (e - p.2.1), x ∈ lines :=
    fun x hx => List.drop_subset p.2.1 lines (List.take_subset _ _ hx)
  have hnonl : ∀ x ∈ (lines.drop p.2.1).take (e - p.2.1), ('\n' : Char) ∉ x.data :=
    fun x hx => splitLines_no_newline (hsub x hx)
  have hcontent : b.content = joinSep "\n" ((lines.drop p.2.1).take (e - p.2.1)) := by
    rw [← hbeq]
  have hround : splitLines b.content = (lines.drop p.2.1).take (e - p.2.1) := by
    rw [hcontent]
    exact splitLines_joinSep _ hne hnonl
  have hget0 : ((lines.drop p.2.1).take (e - p.2.1)).get? 0 = lines.get? p.2.1 := by
    rw [List.get?_take (by omega : 0 < e - p.2.1), List.get?_drop, Nat.add_zero]
  have htitle : b.title = p.2.2 := by rw [← hbeq]
  refine ⟨hline, ?_, ?_⟩
  · rw [hround, hget0]
    exact hhl
  · rw [htitle]
    exact hparse

/-- C10 witness: the relative-offset facts instantiated on the second book of
a concrete two-book text, whose first chapter restarts at `start_line = 2`
inside the book slice although it sits on line 5 of the whole document. -/
theorem C10_chapter_lines_relative_to_book_witness :
    witBook ∈ segment_into_books witText ∧
    witChapter ∈ segment_into_chapters witBook.content witBook.title ∧
    (∃ hline, (splitLines witBook.content).get? 0 = some hline ∧
      parseBookHeader hline = some witBook.title) ∧
    (1 ≤ witChapter.start_line ∧
      witChapter.start_line ≤ (splitLines witBook.content).length ∧
      witChapter.end_line ≤ (splitLines witBook.content).length ∧
      ∃ mline, (splitLines witBook.content).get? (witChapter.start_line - 1) = some mline ∧
        isChapterMarkerLine (pyStrip mline) = true) := by
  refine ⟨by decide, by decide, ?_, ?_⟩
  · exact (C10_chapter_lines_relative_to_book witText witBook (by decide)).1
  · exact (C10_chapter_lines_relative_to_book witText witBook (by decide)).2
      witChapter (by decide)

/-! ### Chapter counting across the rebuild (C8) -/

theorem insertOccs_chapters (cid : Nat) : ∀ (occs : List OccData) (db : Database),
    (insertOccs db cid occs).chapters = db.chapters := by
  intro occs
  induction occs with
  | nil => intro db; rfl
  | cons o rest ih => intro db; exact ih _

theorem indexChapterIntoDb_count (hash : String → String) (bookId : Nat) (bdir : BookDir)
    (cm : ChapterMeta) (db : Database) :
    (indexChapterIntoDb hash db bookId bdir cm).chapters.length
      = db.chapters.length + (if (readFile bdir cm.filename).isSome then 1 else 0) := by
  unfold indexChapterIntoDb
  cases h : readFile bdir cm.filename with
  | none => simp
  | some content =>
    rw [insertOccs_chapters]
    simp

theorem foldl_chapters_count (hash : String → String) (bookId : Nat) (bdir : BookDir) :
    ∀ (cms : List ChapterMeta) (db : Database),
      (cms.foldl (fun d cm => indexChapterIntoDb hash d bookId bdir cm) db).chapters.length
        = db.chapters.length
          + (cms.filter (fun cm => (readFile bdir cm.filename).isSome)).length := by
  intro cms
  induction cms with
  | nil => intro db; simp
  | cons cm rest ih =>
    intro db
    rw [List.foldl_cons, ih, indexChapterIntoDb_count, List.filter_cons]
    by_cases h : (readFile bdir cm.filename).isSome = true
    · simp only [h, if_true]
      rw [List.length_cons]
      omega
    · simp only [h]
      rw [if_neg (by simpa using h)]
      simp only [Bool.false_eq_true, if_false]
      omega

theorem indexBookIntoDb_count (hash : String → String) (bdir : BookDir) (db : Database) :
    (indexBookIntoDb hash db bdir).chapters.length
      = db.chapters.length
        + (match bdir.meta with
            | none => 0
            | some bm =>
              (bm.chapters.filter (fun cm => (readFile bdir cm.filename).isSome)).length) := by
  unfold indexBookIntoDb
  cases h : bdir.meta with
  | none => simp
  | some bm =>
    rw [foldl_chapters_count]

theorem foldl_books_count (hash : String → String) :
    ∀ (bds : List BookDir) (db : Database),
      (bds.foldl (fun d bd => indexBookIntoDb hash d bd) db).chapters.length
        = db.chapters.length
          + (bds.map (fun bd =>
              match bd.meta with
              | none => 0
              | some bm =>
                (bm.chapters.filter (fun cm => (readFile bd cm.filename).isSome)).length)).sum := by
  intro bds
  induction bds with
  | nil => intro db; simp
  | cons bd rest ih =>
    intro db
    rw [List.foldl_cons, ih, indexBookIntoDb_count, List.map_cons, List.sum_cons]
    omega

/-- The number of chapter records whose files are actually present in the
segments directory. -/
def presentChapterCount (fs : SegmentsDir) : Nat :=
  (fs.bookDirs.map (fun bd =>
    match bd.meta with
    | none => 0
    | some bm =>
      (bm.chapters.filter (fun cm => (readFile bd cm.filename).isSome)).length)).sum

/-- C8 amended: an `index_text` run echoes exactly its two fixed status lines
— a missing chapter file produces no report — and the rebuilt store holds one
chapter row per chapter whose file is present: missing chapters are skipped
while the surrounding book and all remaining chapters are indexed, so the run
completes. -/
theorem C8_silent_skip :
    ∀ (hash : String → String) (prior : Database) (fs : SegmentsDir),
      (index_text hash prior fs).messages
        = ["Creating search index...", "✓ Search index created successfully!"] ∧
      (index_text hash prior fs).db.chapters.length = presentChapterCount fs := by
  intro hash prior fs
  refine ⟨rfl, ?_⟩
  unfold index_text presentChapterCount
  rw [foldl_books_count]
  simp

end FiqhTool
